import Mathlib

/-!
Verification of the algo-trading backtester core (indicator library,
simulation engine, Kelly sizing, drawdown replay) against its
natural-language specification.

Numeric model: the C++ `double` values are embedded as exact rationals
(`ℚ`); `std::vector<double>` becomes `List ℚ`; the date labels are order-only
keys modelled as `ℕ`.  The square root used by the volatility bands is
irrational in general, so it is passed as an explicit function parameter
`sqrtq : ℚ → ℚ`; no claim below depends on its values.
-/

set_option maxRecDepth 8000

/-- The `OHLCV` record from include/types.hpp (the `open` field is renamed
`open_` because `open` is a keyword). -/
structure OHLCV where
  date : ℕ
  open_ : ℚ
  high : ℚ
  low : ℚ
  close : ℚ
  adjClose : ℚ
  volume : ℤ
  deriving DecidableEq, Repr

instance : Inhabited OHLCV := ⟨⟨0, 0, 0, 0, 0, 0, 0⟩⟩

/-- The `Trade` record from include/types.hpp.  Fields that C++ leaves
uninitialised until the position closes are modelled as 0. -/
structure Trade where
  entryDate : ℕ
  exitDate : ℕ
  entryPrice : ℚ
  exitPrice : ℚ
  shares : ℚ
  pnl : ℚ
  returnPct : ℚ
  deriving DecidableEq, Repr

instance : Inhabited Trade := ⟨⟨0, 0, 0, 0, 0, 0, 0⟩⟩

/-- The `MACDResult` from include/types.hpp. -/
structure MACDResult where
  macd : List ℚ
  signal : List ℚ
  histogram : List ℚ
  deriving DecidableEq, Repr

/-- The `BollingerBands` from include/types.hpp. -/
structure BollingerBands where
  upper : List ℚ
  middle : List ℚ
  lower : List ℚ
  deriving DecidableEq, Repr

namespace TechnicalIndicators

/-- The `TechnicalIndicators::SMA` (src/TechnicalIndicators.cpp:6-22).
The C++ sliding-window running sum is written in closed window form:
for `i ≥ period-1` the value is the mean of the trailing `period`
prices; earlier indices hold the 0.0 sentinel; an input shorter than
`period` yields the all-sentinel series. -/
def SMA (prices : List ℚ) (period : ℕ) : List ℚ :=
  if prices.length < period then List.replicate prices.length 0
  else
    (List.range prices.length).map fun i =>
      if i + 1 < period then 0
      else ((prices.drop (i + 1 - period)).take period).sum / period

/-- The EMA recurrence `ema[i] = (price[i] - ema[i-1]) * m + ema[i-1]`
applied successively from a previous value (src/TechnicalIndicators.cpp:40-42). -/
def emaFrom (m : ℚ) (prev : ℚ) : List ℚ → List ℚ
  | [] => []
  | p :: rest =>
    let v := (p - prev) * m + prev
    v :: emaFrom m v rest

/-- The `TechnicalIndicators::EMA` (src/TechnicalIndicators.cpp:25-45):
seeded with the mean of the first `period` prices at index `period-1`,
multiplier `2/(period+1)`, 0.0 sentinel before the seed and for
insufficient data. -/
def EMA (prices : List ℚ) (period : ℕ) : List ℚ :=
  if prices.length < period then List.replicate prices.length 0
  else
    let seed := (prices.take period).sum / period
    let m : ℚ := 2 / ((period : ℚ) + 1)
    List.replicate (period - 1) 0 ++ seed :: emaFrom m seed (prices.drop period)

/-- The `RS` as computed at src/TechnicalIndicators.cpp:63 and 75:
`avgGain/avgLoss`, taken to be 100 when `avgLoss` is exactly 0. -/
def rsiRS (avgGain avgLoss : ℚ) : ℚ :=
  if avgLoss = 0 then 100 else avgGain / avgLoss

/-- One RSI output value `100 - 100/(1+RS)`
(src/TechnicalIndicators.cpp:64 and 76). -/
def rsiVal (avgGain avgLoss : ℚ) : ℚ :=
  100 - 100 / (1 + rsiRS avgGain avgLoss)

/-- Wilder smoothing step for the (avgGain, avgLoss) pair
(src/TechnicalIndicators.cpp:68-73). -/
def wilderStep (period : ℕ) (st : ℚ × ℚ) (change : ℚ) : ℚ × ℚ :=
  ((st.1 * ((period : ℚ) - 1) + (if 0 < change then change else 0)) / period,
   (st.2 * ((period : ℚ) - 1) + (if change < 0 then -change else 0)) / period)

/-- The `TechnicalIndicators::RSI` (src/TechnicalIndicators.cpp:48-80):
neutral 50.0 sentinel during warm-up and for insufficient data; the
first average gain/loss is a plain mean of the first `period` deltas
(a delta of 0 is counted on the loss side, adding 0); subsequent steps
use Wilder smoothing. -/
def RSI (prices : List ℚ) (period : ℕ) : List ℚ :=
  if prices.length < period + 1 then List.replicate prices.length 50
  else
    let changes := List.zipWith (fun a b => a - b) prices.tail prices
    let initGain := ((changes.take period).map (fun c => if 0 < c then c else 0)).sum / period
    let initLoss := ((changes.take period).map (fun c => if 0 < c then 0 else -c)).sum / period
    List.replicate period 50 ++
      ((changes.drop period).scanl (wilderStep period) (initGain, initLoss)).map
        (fun st => rsiVal st.1 st.2)

/-- The `TechnicalIndicators::MACD` (src/TechnicalIndicators.cpp:83-108). -/
def MACD (prices : List ℚ) (fastPeriod slowPeriod signalPeriod : ℕ) : MACDResult :=
  let fastEMA := EMA prices fastPeriod
  let slowEMA := EMA prices slowPeriod
  let macdLine := List.zipWith (fun a b => a - b) fastEMA slowEMA
  let signalLine := EMA macdLine signalPeriod
  { macd := macdLine
    signal := signalLine
    histogram := List.zipWith (fun a b => a - b) macdLine signalLine }

/-- The `TechnicalIndicators::StdDev` (src/TechnicalIndicators.cpp:111-125):
population standard deviation of the trailing window around the SMA.
The square root is the explicit parameter `sqrtq`. -/
def StdDev (sqrtq : ℚ → ℚ) (prices : List ℚ) (period : ℕ) : List ℚ :=
  let sma := SMA prices period
  (List.range prices.length).map fun i =>
    if i + 1 < period then 0
    else sqrtq ((((List.range period).map
      (fun j => (prices.getD (i - j) 0 - sma.getD i 0) ^ 2)).sum) / period)

/-- The `TechnicalIndicators::BollingerBand` (src/TechnicalIndicators.cpp:128-144). -/
def BollingerBand (sqrtq : ℚ → ℚ) (prices : List ℚ) (period : ℕ)
    (numStdDev : ℚ) : BollingerBands :=
  let middle := SMA prices period
  let sd := StdDev sqrtq prices period
  { upper := List.zipWith (fun m s => m + numStdDev * s) middle sd
    middle := middle
    lower := List.zipWith (fun m s => m - numStdDev * s) middle sd }

end TechnicalIndicators

namespace Backtester

/-- Strategy configuration: the constructor parameters of `Backtester`
(src/Backtester.cpp:15-32 / include/Backtester.hpp). -/
structure BTConfig where
  shortPeriod : ℕ
  longPeriod : ℕ
  initialCapital : ℚ
  useRSI : Bool
  useEMA : Bool
  useMACD : Bool
  useBollinger : Bool
  stopLossPercent : ℚ
  takeProfitPercent : ℚ
  commissionRate : ℚ
  useKellyCriterion : Bool
  deriving DecidableEq, Repr

/-- The mutable ledger of the engine: `currentCash`, `currentShares`,
`inPosition` and the trade log (include/Backtester.hpp). -/
structure BTState where
  currentCash : ℚ
  currentShares : ℚ
  inPosition : Bool
  trades : List Trade
  deriving DecidableEq, Repr

instance : Inhabited BTState := ⟨⟨0, 0, false, []⟩⟩

/-- Ledger state right after construction (src/Backtester.cpp:31):
`currentCash = capital`, `currentShares = 0`, not in position, empty log. -/
def initState (cfg : BTConfig) : BTState :=
  { currentCash := cfg.initialCapital, currentShares := 0
    inPosition := false, trades := [] }

/-- The fill-price rule as the spec words it: the next bar's open when
the next bar exists and its open is strictly positive, otherwise the
current bar's close.  `enterPosition` and `exitPosition` inline this
same conditional (src/Backtester.cpp:131-133 and 157-159). -/
def fillPrice (data : List OHLCV) (idx : ℕ) : ℚ :=
  if idx + 1 < data.length ∧ 0 < (data.getD (idx + 1) default).open_ then
    (data.getD (idx + 1) default).open_
  else (data.getD idx default).close

/-- Count of trades with strictly positive pnl, as accumulated by the
loop in `calculateKellyFraction` (src/Backtester.cpp:200-207). -/
def kellyWins (trades : List Trade) : ℕ :=
  (trades.filter fun t => decide (0 < t.pnl)).length

/-- Sum of `returnPct` over the strictly-positive-pnl trades
(src/Backtester.cpp:203). -/
def kellyTotalWinAmount (trades : List Trade) : ℚ :=
  ((trades.filter fun t => decide (0 < t.pnl)).map Trade.returnPct).sum

/-- Sum of `-returnPct` over the remaining (pnl ≤ 0) trades
(src/Backtester.cpp:205). -/
def kellyTotalLossAmount (trades : List Trade) : ℚ :=
  ((trades.filter fun t => !decide (0 < t.pnl)).map fun t => -t.returnPct).sum

/-- The `avgLoss = totalLossAmount / (trades.size() - wins)`
(src/Backtester.cpp:213). -/
def kellyAvgLoss (trades : List Trade) : ℚ :=
  kellyTotalLossAmount trades / ((trades.length - kellyWins trades : ℕ) : ℚ)

/-- The `Backtester::calculateKellyFraction` (src/Backtester.cpp:194-222). -/
def calculateKellyFraction (trades : List Trade) : ℚ :=
  if trades.length < 5 then 1
  else if kellyWins trades = 0 ∨ kellyWins trades = trades.length then 1
  else
    let winRate : ℚ := (kellyWins trades : ℚ) / (trades.length : ℚ)
    let avgWin : ℚ := kellyTotalWinAmount trades / (kellyWins trades : ℚ)
    let avgLoss : ℚ := kellyAvgLoss trades
    if avgLoss = 0 then 1
    else max 0 (min ((winRate - (1 - winRate) / (avgWin / avgLoss)) * (1 / 2)) 1)

/-- Modelled from the claim's words: the half-Kelly value
`winRate - (1-winRate)/(avgWin/avgLoss)`, halved, clamped to [0,1].
Stated independently of the code's early-return guards so that the code
can be compared against it. -/
def kellyClaimFormula (trades : List Trade) : ℚ :=
  let winRate : ℚ := (kellyWins trades : ℚ) / (trades.length : ℚ)
  let avgWin : ℚ := kellyTotalWinAmount trades / (kellyWins trades : ℚ)
  let avgLoss : ℚ := kellyAvgLoss trades
  max 0 (min ((winRate - (1 - winRate) / (avgWin / avgLoss)) * (1 / 2)) 1)

/-- The `Backtester::enterPosition` (src/Backtester.cpp:130-154).  Entry
commission is taken off the cash, a Kelly fraction is applied when
enabled and at least 5 trades exist, the scaled amount is converted to
shares, and `currentCash` is set to 0. -/
def enterPosition (cfg : BTConfig) (data : List OHLCV) (idx : ℕ) (s : BTState) : BTState :=
  let entryPrice :=
    if idx + 1 < data.length ∧ 0 < (data.getD (idx + 1) default).open_ then
      (data.getD (idx + 1) default).open_
    else (data.getD idx default).close
  let commission := s.currentCash * cfg.commissionRate
  let availableCash := s.currentCash - commission
  let positionFraction : ℚ :=
    if cfg.useKellyCriterion ∧ 5 ≤ s.trades.length then calculateKellyFraction s.trades
    else 1
  let newShares := availableCash * positionFraction / entryPrice
  { currentCash := 0
    currentShares := newShares
    inPosition := true
    trades := s.trades ++
      [{ entryDate := (data.getD idx default).date
         exitDate := 0
         entryPrice := entryPrice
         exitPrice := 0
         shares := newShares
         pnl := 0
         returnPct := 0 }] }

/-- The `Backtester::exitPosition` (src/Backtester.cpp:156-172).  Proceeds
net of exit commission become the cash; the last trade in the log is
finalised in place. -/
def exitPosition (cfg : BTConfig) (data : List OHLCV) (idx : ℕ) (s : BTState) : BTState :=
  let exitPrice :=
    if idx + 1 < data.length ∧ 0 < (data.getD (idx + 1) default).open_ then
      (data.getD (idx + 1) default).open_
    else (data.getD idx default).close
  let grossProceeds := s.currentShares * exitPrice
  let commission := grossProceeds * cfg.commissionRate
  let newCash := grossProceeds - commission
  let t := s.trades.getLastD default
  let t' : Trade :=
    { t with
      exitDate := (data.getD idx default).date
      exitPrice := exitPrice
      pnl := newCash - t.shares * t.entryPrice
      returnPct := (newCash - t.shares * t.entryPrice) / (t.shares * t.entryPrice) * 100 }
  { currentCash := newCash
    currentShares := 0
    inPosition := false
    trades := s.trades.dropLast ++ [t'] }

/-- The `Backtester::checkStopLoss` (src/Backtester.cpp:174-182). -/
def checkStopLoss (cfg : BTConfig) (data : List OHLCV) (idx : ℕ) (s : BTState) : Bool :=
  if cfg.stopLossPercent ≤ 0 ∨ s.trades = [] then false
  else
    let currentPrice := (data.getD idx default).close
    let entryPrice := (s.trades.getLastD default).entryPrice
    let pnlPercent := (currentPrice - entryPrice) / entryPrice
    decide (pnlPercent ≤ -cfg.stopLossPercent)

/-- The `Backtester::checkTakeProfit` (src/Backtester.cpp:184-192). -/
def checkTakeProfit (cfg : BTConfig) (data : List OHLCV) (idx : ℕ) (s : BTState) : Bool :=
  if cfg.takeProfitPercent ≤ 0 ∨ s.trades = [] then false
  else
    let currentPrice := (data.getD idx default).close
    let entryPrice := (s.trades.getLastD default).entryPrice
    let pnlPercent := (currentPrice - entryPrice) / entryPrice
    decide (cfg.takeProfitPercent ≤ pnlPercent)

/-- The indicator series computed up front by `Backtester::run`
(src/Backtester.cpp:40-66); series for disabled features are the empty
vector, exactly as in the source. -/
structure IndicatorSet where
  shortMA : List ℚ
  longMA : List ℚ
  rsi : List ℚ
  macdHistogram : List ℚ
  bbUpper : List ℚ
  closes : List ℚ
  deriving Repr

/-- Indicator set-up of `Backtester::run` (src/Backtester.cpp:40-66):
EMA or SMA pair for the crossover, RSI with period 14, MACD with
defaults 12/26/9, Bollinger bands with defaults 20/2. -/
def computeIndicators (sqrtq : ℚ → ℚ) (cfg : BTConfig) (data : List OHLCV) : IndicatorSet :=
  let closes := data.map OHLCV.close
  { shortMA :=
      if cfg.useEMA then TechnicalIndicators.EMA closes cfg.shortPeriod
      else TechnicalIndicators.SMA closes cfg.shortPeriod
    longMA :=
      if cfg.useEMA then TechnicalIndicators.EMA closes cfg.longPeriod
      else TechnicalIndicators.SMA closes cfg.longPeriod
    rsi := if cfg.useRSI then TechnicalIndicators.RSI closes 14 else []
    macdHistogram :=
      if cfg.useMACD then (TechnicalIndicators.MACD closes 12 26 9).histogram else []
    bbUpper :=
      if cfg.useBollinger then
        (TechnicalIndicators.BollingerBand sqrtq closes 20 2).upper
      else []
    closes := closes }

/-- The body of the signal loop of `Backtester::run` for one index `i`
(src/Backtester.cpp:69-122): stop-loss then take-profit exits take
priority; otherwise the MA-crossover signals, narrowed by the optional
RSI / MACD / Bollinger entry filters, drive `enterPosition` /
`exitPosition`. -/
def stepBar (cfg : BTConfig) (data : List OHLCV) (ind : IndicatorSet)
    (i : ℕ) (s : BTState) : BTState :=
  if s.inPosition && checkStopLoss cfg data i s then exitPosition cfg data i s
  else if s.inPosition && checkTakeProfit cfg data i s then exitPosition cfg data i s
  else
    let currentCross : Bool := decide (ind.longMA.getD i 0 < ind.shortMA.getD i 0)
    let previousCross : Bool := decide (ind.longMA.getD (i - 1) 0 < ind.shortMA.getD (i - 1) 0)
    let entrySignal0 : Bool := decide (0 < i) && currentCross && !previousCross
    let exitSignal : Bool := decide (0 < i) && !currentCross && previousCross
    let entrySignal1 : Bool :=
      entrySignal0 && !(cfg.useRSI && decide (70 ≤ ind.rsi.getD i 0))
    let entrySignal2 : Bool :=
      entrySignal1 && !(cfg.useMACD && decide (ind.macdHistogram.getD i 0 ≤ 0))
    let entrySignal : Bool :=
      entrySignal2 && !(cfg.useBollinger && decide (ind.bbUpper.getD i 0 < ind.closes.getD i 0))
    if entrySignal && !s.inPosition then enterPosition cfg data i s
    else if exitSignal && s.inPosition then exitPosition cfg data i s
    else s

/-- The signal loop of `Backtester::run` from index `i` for `fuel`
remaining bars, also returning the ledger state after every bar (which
includes the state after every `enterPosition` / `exitPosition`). -/
def runFrom (cfg : BTConfig) (data : List OHLCV) (ind : IndicatorSet)
    (i : ℕ) (s : BTState) : ℕ → BTState × List BTState
  | 0 => (s, [])
  | fuel + 1 =>
    let s' := stepBar cfg data ind i s
    let r := runFrom cfg data ind (i + 1) s' fuel
    (r.1, s' :: r.2)

/-- The full forward pass of `Backtester::run`
(indices `longPeriod ≤ i < data.size()`, src/Backtester.cpp:69-122). -/
def runLoop (sqrtq : ℚ → ℚ) (cfg : BTConfig) (data : List OHLCV) : BTState × List BTState :=
  runFrom cfg data (computeIndicators sqrtq cfg data) cfg.longPeriod (initState cfg)
    (data.length - cfg.longPeriod)

/-- The `Backtester::run` (src/Backtester.cpp:34-128): abort before any
state mutation when fewer than `longPeriod+1` bars exist; otherwise run
the forward pass and force-close any position still open at the final
index.  The second component is the history of ledger states. -/
def run (sqrtq : ℚ → ℚ) (cfg : BTConfig) (data : List OHLCV) : BTState × List BTState :=
  if data.length < cfg.longPeriod + 1 then (initState cfg, [])
  else
    let r := runLoop sqrtq cfg data
    if r.1.inPosition then
      let s2 := exitPosition cfg data (data.length - 1) r.1
      (s2, r.2 ++ [s2])
    else r

/-- The `winningTrades` count of `Backtester::calculateMetrics`
(src/Backtester.cpp:241-250): trades with strictly positive pnl. -/
def winningTrades (trades : List Trade) : ℕ :=
  (trades.filter fun t => decide (0 < t.pnl)).length

/-- The `totalWin` of `Backtester::calculateMetrics` (src/Backtester.cpp:246):
summed pnl of winning trades. -/
def totalWin (trades : List Trade) : ℚ :=
  ((trades.filter fun t => decide (0 < t.pnl)).map Trade.pnl).sum

/-- The `totalLoss` of `Backtester::calculateMetrics` (src/Backtester.cpp:248):
summed `-pnl` of the remaining (pnl ≤ 0) trades. -/
def totalLoss (trades : List Trade) : ℚ :=
  ((trades.filter fun t => !decide (0 < t.pnl)).map fun t => -t.pnl).sum

/-- Loop state of `Backtester::calculateMaxDrawdown`
(src/Backtester.cpp:262-300). -/
structure DDState where
  peak : ℚ
  maxDD : ℚ
  equity : ℚ
  tradeIdx : ℕ
  holding : Bool
  entryPrice : ℚ
  shares : ℚ
  deriving DecidableEq, Repr

instance : Inhabited DDState := ⟨⟨0, 0, 0, 0, false, 0, 0⟩⟩

/-- One iteration of the equity-curve replay in
`Backtester::calculateMaxDrawdown` (src/Backtester.cpp:274-297):
match the bar's date against the current trade's entry date to start
holding (equity = shares * entryPrice), mark equity to the bar's close
while holding, and on the exit date set equity to shares * exitPrice
and advance the trade pointer; then update peak and drawdown. -/
def ddStep (trades : List Trade) (bar : OHLCV) (st : DDState) : DDState :=
  let st1 :=
    if st.tradeIdx < trades.length then
      let t := trades.getD st.tradeIdx default
      let stA :=
        if !st.holding && decide (bar.date = t.entryDate) then
          { st with holding := true, entryPrice := t.entryPrice, shares := t.shares,
                    equity := t.shares * t.entryPrice }
        else st
      if stA.holding then
        if bar.date = t.exitDate then
          { stA with holding := false, equity := stA.shares * t.exitPrice,
                     tradeIdx := stA.tradeIdx + 1 }
        else { stA with equity := stA.shares * bar.close }
      else stA
    else st
  let peak' := if st1.peak < st1.equity then st1.equity else st1.peak
  let dd := (peak' - st1.equity) / peak' * 100
  { st1 with peak := peak', maxDD := if st1.maxDD < dd then dd else st1.maxDD }

/-- Initial replay state of `Backtester::calculateMaxDrawdown`
(src/Backtester.cpp:265-272). -/
def ddInit (cfg : BTConfig) : DDState :=
  { peak := cfg.initialCapital, maxDD := 0, equity := cfg.initialCapital,
    tradeIdx := 0, holding := false, entryPrice := 0, shares := 0 }

/-- The `Backtester::calculateMaxDrawdown` (src/Backtester.cpp:262-300):
replay the equity curve over the bars from `longPeriod` on and report
the maximal drawdown. -/
def calculateMaxDrawdown (cfg : BTConfig) (data : List OHLCV) (trades : List Trade) : ℚ :=
  if data = [] then 0
  else ((data.drop cfg.longPeriod).foldl (fun st bar => ddStep trades bar st) (ddInit cfg)).maxDD

/-- The successive replay states of `Backtester::calculateMaxDrawdown`,
one per bar visited (same step function as `calculateMaxDrawdown`). -/
def ddTrace (cfg : BTConfig) (data : List OHLCV) (trades : List Trade) : List DDState :=
  ((data.drop cfg.longPeriod).scanl (fun st bar => ddStep trades bar st) (ddInit cfg)).drop 1

end Backtester

/-! ## Concrete scenarios used to settle the claims

All bars carry only the fields the engine reads (date, open, close);
unused fields are 0.  Dates are the bar indices. -/

/-- Bar with the given date label, open and close. -/
def mkBar (d : ℕ) (o c : ℚ) : OHLCV := ⟨d, o, 0, 0, c, 0, 0⟩

/-- Config with shortPeriod 1, longPeriod 2, capital 100, no filters,
no risk exits, zero commission, Kelly sizing on.  With these periods the
SMA crossover fires an entry whenever the close rises after a non-rise
and an exit whenever it falls after a rise. -/
def cfgKellyZero : Backtester.BTConfig :=
  ⟨1, 2, 100, false, false, false, false, 0, 0, 0, true⟩

/-- Fourteen bars whose alternating closes produce six entries (bars 2, 4, 6,
8, 10, 12) and exits one bar later.  The opens are chosen so that the
first five round-trips are one +25% winner followed by four -20%
losers, making the sixth entry's Kelly fraction exactly 0. -/
def dataKellyZero : List OHLCV :=
  [mkBar 0 1 10, mkBar 1 1 9, mkBar 2 1 10, mkBar 3 4 9, mkBar 4 5 10,
   mkBar 5 5 9, mkBar 6 4 10, mkBar 7 5 9, mkBar 8 4 10, mkBar 9 5 9,
   mkBar 10 4 10, mkBar 11 5 9, mkBar 12 4 10, mkBar 13 5 9]

/-- Five completed trades: three winners (+1% each) and two losers
(-1% each); their Kelly fraction is 1/10, strictly between 0 and 1. -/
def tradesMixed5 : List Trade :=
  [⟨0, 0, 1, 1, 1, 1, 1⟩, ⟨0, 0, 1, 1, 1, 1, 1⟩, ⟨0, 0, 1, 1, 1, 1, 1⟩,
   ⟨0, 0, 1, 1, 1, -1, -1⟩, ⟨0, 0, 1, 1, 1, -1, -1⟩]

/-- Config with Kelly sizing enabled and zero commission. -/
def cfgKellyOn : Backtester.BTConfig :=
  ⟨1, 2, 100, false, false, false, false, 0, 0, 0, true⟩

/-- Two bars; the second bar's open (the fill price for a transition at
index 0) is 10. -/
def dataTwoBars : List OHLCV := [mkBar 0 1 7, mkBar 1 10 7]

/-- Ledger holding 100 in cash, flat, with five completed trades. -/
def stateMixed5 : Backtester.BTState := ⟨100, 0, false, tradesMixed5⟩

/-- Two completed trades (one winner, one heavy loser): a history the
Kelly half-formula maps to 0 but the code maps to 1 because it has
fewer than 5 trades. -/
def tradesTwo : List Trade := [⟨0, 0, 1, 1, 1, 1, 1⟩, ⟨0, 0, 1, 1, 1, -1, -100⟩]

/-- Config with shortPeriod 1, longPeriod 2, no filters, no commission,
no Kelly. -/
def cfgTrendUp : Backtester.BTConfig :=
  ⟨1, 2, 100, false, false, false, false, 0, 0, 0, false⟩

/-- Six bars that cross up at bar 2 and keep rising: the position is
still open after the forward pass and is force-closed at the last
index, whose fill price falls back to the last close (13). -/
def dataTrendUp : List OHLCV :=
  [mkBar 0 1 10, mkBar 1 1 9, mkBar 2 1 10, mkBar 3 10 11, mkBar 4 1 12, mkBar 5 1 13]

/-- Config with a 10% commission rate (and no filters, no Kelly). -/
def cfgCommission : Backtester.BTConfig :=
  ⟨1, 2, 100, false, false, false, false, 0, 0, 1 / 10, false⟩

/-- Six bars producing exactly one trade: entry at bar 2 and exit at
bar 3 (both fill at 5), then two flat bars.  With 10% commission the
ledger's realized cash is 81 while the trade's gross exit proceeds are
18 × 5 = 90. -/
def dataOneTrade : List OHLCV :=
  [mkBar 0 1 10, mkBar 1 1 9, mkBar 2 1 10, mkBar 3 5 9, mkBar 4 5 9, mkBar 5 1 9]

/-! ## General helper lemmas -/

/-- Any predicate preserved by the step function holds at every state
produced by `List.scanl`, given that it holds initially. -/
lemma scanl_all {α β : Type} (P : β → Prop) (f : β → α → β)
    (hf : ∀ b a, P b → P (f b a)) :
    ∀ (l : List α) (b : β), P b → ∀ x ∈ List.scanl f b l, P x := by
  intro l
  induction l with
  | nil =>
    intro b hb x hx
    rw [List.scanl_nil, List.mem_singleton] at hx
    exact hx ▸ hb
  | cons a l ih =>
    intro b hb x hx
    rw [List.scanl_cons] at hx
    rcases List.mem_append.mp hx with h | h
    · rw [List.mem_singleton] at h
      exact h ▸ hb
    · exact ih (f b a) (hf b a hb) x h

namespace TechnicalIndicators

/-- A single RSI output value lies in [0, 100] whenever the running
averages are nonnegative. -/
lemma rsiVal_bounds (ag al : ℚ) (hg : 0 ≤ ag) (hl : 0 ≤ al) :
    0 ≤ rsiVal ag al ∧ rsiVal ag al ≤ 100 := by
  unfold rsiVal rsiRS
  split
  · norm_num
  · rename_i h
    have hal : 0 < al := lt_of_le_of_ne hl (Ne.symm h)
    have hrs : 0 ≤ ag / al := div_nonneg hg hal.le
    have h1 : (0 : ℚ) < 1 + ag / al := by linarith
    constructor
    · have hb : 100 / (1 + ag / al) ≤ 100 := by
        rw [div_le_iff₀ h1]
        nlinarith
      linarith
    · have hb : 0 ≤ 100 / (1 + ag / al) := by positivity
      linarith

/-- Wilder smoothing keeps the average gain and loss nonnegative
(for a positive period). -/
lemma wilderStep_nonneg (period : ℕ) (hp : 0 < period) (st : ℚ × ℚ) (c : ℚ)
    (h1 : 0 ≤ st.1) (h2 : 0 ≤ st.2) :
    0 ≤ (wilderStep period st c).1 ∧ 0 ≤ (wilderStep period st c).2 := by
  unfold wilderStep
  have hper : (1 : ℚ) ≤ (period : ℚ) := by exact_mod_cast hp
  have hpm : (0 : ℚ) ≤ (period : ℚ) - 1 := by linarith
  constructor
  · apply div_nonneg _ (by positivity)
    have hite : (0 : ℚ) ≤ (if 0 < c then c else 0) := by
      split <;> linarith
    have := mul_nonneg h1 hpm
    linarith
  · apply div_nonneg _ (by positivity)
    have hite : (0 : ℚ) ≤ (if c < 0 then -c else 0) := by
      split
      · rename_i hc; linarith
      · linarith
    have := mul_nonneg h2 hpm
    linarith

end TechnicalIndicators

/-! ## C6 — RSI output range -/

/-- C6: for every finite input price series and every positive period,
every element of the series returned by `RSI` lies in [0, 100], and the
warm-up positions hold exactly the 50.0 sentinel. -/
theorem rsi_output_in_range (prices : List ℚ) (period : ℕ) (hp : 0 < period) :
    (∀ x ∈ TechnicalIndicators.RSI prices period, 0 ≤ x ∧ x ≤ 100) ∧
    (∀ i, i < period → i < prices.length →
      (TechnicalIndicators.RSI prices period).getD i 0 = 50) := by
  unfold TechnicalIndicators.RSI
  split
  · constructor
    · intro x hx
      have h50 := List.eq_of_mem_replicate hx
      subst h50
      norm_num
    · intro i _ hilen
      rw [List.getD_eq_getElem?_getD, List.getElem?_replicate, if_pos hilen]
      rfl
  · constructor
    · intro x hx
      dsimp only at hx
      rcases List.mem_append.mp hx with hx | hx
      · have h50 := List.eq_of_mem_replicate hx
        subst h50
        norm_num
      · rcases List.mem_map.mp hx with ⟨st, hst, rfl⟩
        have hinv : (fun st : ℚ × ℚ => 0 ≤ st.1 ∧ 0 ≤ st.2) st := by
          refine scanl_all (fun st : ℚ × ℚ => 0 ≤ st.1 ∧ 0 ≤ st.2)
            (TechnicalIndicators.wilderStep period) ?_ _ _ ⟨?_, ?_⟩ st hst
          · intro b a hb
            exact TechnicalIndicators.wilderStep_nonneg period hp b a hb.1 hb.2
          · apply div_nonneg _ (by positivity)
            apply List.sum_nonneg
            intro y hy
            rcases List.mem_map.mp hy with ⟨c, _, rfl⟩
            split <;> simp_all <;> linarith
          · apply div_nonneg _ (by positivity)
            apply List.sum_nonneg
            intro y hy
            rcases List.mem_map.mp hy with ⟨c, _, rfl⟩
            split
            · simp
            · rename_i hcpos
              push_neg at hcpos
              linarith
        exact TechnicalIndicators.rsiVal_bounds st.1 st.2 hinv.1 hinv.2
    · intro i hi _
      dsimp only
      rw [List.getD_eq_getElem?_getD, List.getElem?_append,
        if_pos (by simpa using hi), List.getElem?_replicate, if_pos hi]
      rfl

/-- Witness for C6 at a concrete series and period. -/
theorem rsi_output_in_range_witness :
    (0 ≤ (TechnicalIndicators.RSI [1, 2, 1, 5] 2).getD 3 0 ∧
      (TechnicalIndicators.RSI [1, 2, 1, 5] 2).getD 3 0 ≤ 100) ∧
    (TechnicalIndicators.RSI [1, 2, 1, 5] 2).getD 0 0 = 50 :=
  ⟨(rsi_output_in_range [1, 2, 1, 5] 2 (by decide)).1 _ (by with_unfolding_all decide),
   (rsi_output_in_range [1, 2, 1, 5] 2 (by decide)).2 0 (by decide) (by decide)⟩

/-! ## C7 — RSI at zero average loss -/

/-- C7 counterexample: on the strictly increasing series [1,2,3,4] with
period 2, every average loss is exactly 0 — both the seeded average and
the smoothed one (the Wilder step maps (1,0) with gain 1 to (1,0)
again) — RS is taken to be 100, and the resulting RSI values equal
`rsiVal 1 0 = 10000/101` ≈ 99.0099, not 100 as the claim states. -/
theorem rsi_saturation_counterexample :
    TechnicalIndicators.rsiRS 1 0 = 100 ∧
    TechnicalIndicators.wilderStep 2 (1, 0) 1 = (1, 0) ∧
    TechnicalIndicators.RSI [1, 2, 3, 4] 2
      = [50, 50, TechnicalIndicators.rsiVal 1 0, TechnicalIndicators.rsiVal 1 0] ∧
    TechnicalIndicators.rsiVal 1 0 ≠ 100 := by
  refine ⟨?_, ?_, ?_, ?_⟩
  · norm_num [TechnicalIndicators.rsiRS]
  · norm_num [TechnicalIndicators.wilderStep]
  · norm_num [TechnicalIndicators.RSI, TechnicalIndicators.wilderStep, List.zipWith,
      List.scanl, List.replicate]
  · norm_num [TechnicalIndicators.rsiVal, TechnicalIndicators.rsiRS]

/-- C7 amended: at every RSI step where the smoothed average loss is
exactly 0, RS is taken to be 100 and the resulting RSI value is
`100 - 100/101 = 10000/101` (≈ 99.0099), which is strictly below 100:
the RSI of this code never reaches 100 at such a step. -/
theorem rsi_avgloss_zero_value (avgGain : ℚ) :
    TechnicalIndicators.rsiRS avgGain 0 = 100 ∧
    TechnicalIndicators.rsiVal avgGain 0 = 10000 / 101 ∧
    TechnicalIndicators.rsiVal avgGain 0 < 100 := by
  unfold TechnicalIndicators.rsiVal TechnicalIndicators.rsiRS
  norm_num

/-! ## C9 — moving averages on insufficient data -/

/-- C9: for every positive period and every strictly shorter price
series, `SMA` and `EMA` both return the all-0.0-sentinel series of
exactly the input's length (total functions: no out-of-bounds access,
no exception). -/
theorem ma_insufficient_data (prices : List ℚ) (p : ℕ) (hp : 0 < p)
    (hlen : prices.length < p) :
    TechnicalIndicators.SMA prices p = List.replicate prices.length 0 ∧
    TechnicalIndicators.EMA prices p = List.replicate prices.length 0 ∧
    (TechnicalIndicators.SMA prices p).length = prices.length ∧
    (TechnicalIndicators.EMA prices p).length = prices.length := by
  unfold TechnicalIndicators.SMA TechnicalIndicators.EMA
  rw [if_pos hlen, if_pos hlen]
  simp

/-- Witness for C9 at a concrete short series. -/
theorem ma_insufficient_data_witness :
    TechnicalIndicators.SMA [4, 7] 3 = List.replicate (List.length [(4 : ℚ), 7]) 0 ∧
    TechnicalIndicators.EMA [4, 7] 3 = List.replicate (List.length [(4 : ℚ), 7]) 0 :=
  ⟨(ma_insufficient_data [4, 7] 3 (by decide) (by decide)).1,
   (ma_insufficient_data [4, 7] 3 (by decide) (by decide)).2.1⟩

/-! ## C3 — early abort on insufficient data -/

/-- C3: with fewer than `longPeriod+1` bars, `run` aborts before any
state mutation: the trade log stays empty, the ledger keeps its initial
cash, holds no shares, is not in position, and no bar is processed. -/
theorem insufficient_bars_aborts (sqrtq : ℚ → ℚ) (cfg : Backtester.BTConfig)
    (data : List OHLCV) (h : data.length < cfg.longPeriod + 1) :
    (Backtester.run sqrtq cfg data).1.trades = [] ∧
    (Backtester.run sqrtq cfg data).1.currentCash = cfg.initialCapital ∧
    (Backtester.run sqrtq cfg data).1.currentShares = 0 ∧
    (Backtester.run sqrtq cfg data).1.inPosition = false ∧
    (Backtester.run sqrtq cfg data).2 = [] := by
  unfold Backtester.run
  rw [if_pos h]
  exact ⟨rfl, rfl, rfl, rfl, rfl⟩

/-- Witness for C3: two bars with longPeriod 2. -/
theorem insufficient_bars_aborts_witness :
    (Backtester.run (fun x => x) cfgTrendUp dataTwoBars).1.trades = [] ∧
    (Backtester.run (fun x => x) cfgTrendUp dataTwoBars).1.currentCash
      = cfgTrendUp.initialCapital ∧
    (Backtester.run (fun x => x) cfgTrendUp dataTwoBars).1.currentShares = 0 ∧
    (Backtester.run (fun x => x) cfgTrendUp dataTwoBars).1.inPosition = false ∧
    (Backtester.run (fun x => x) cfgTrendUp dataTwoBars).2 = [] :=
  insufficient_bars_aborts (fun x => x) cfgTrendUp dataTwoBars (by decide)

/-! ## C2 — Kelly-scaled entries and the uninvested remainder -/

/-- C2 counterexample: a concrete entry with Kelly fraction 1/10
(strictly between 0 and 1).  The claim says the uninvested remainder
(1 - f) of the available cash — here 90 — remains in the ledger as free
cash after `enterPosition`; in fact `enterPosition` sets the cash to 0. -/
theorem kelly_remainder_counterexample :
    Backtester.calculateKellyFraction tradesMixed5 = 1 / 10 ∧
    (0 : ℚ) < 1 / 10 ∧ (1 / 10 : ℚ) < 1 ∧
    (1 - Backtester.calculateKellyFraction tradesMixed5) *
      (stateMixed5.currentCash - stateMixed5.currentCash * cfgKellyOn.commissionRate) = 90 ∧
    (Backtester.enterPosition cfgKellyOn dataTwoBars 0 stateMixed5).currentCash = 0 ∧
    (Backtester.enterPosition cfgKellyOn dataTwoBars 0 stateMixed5).currentCash ≠
      (1 - Backtester.calculateKellyFraction tradesMixed5) *
        (stateMixed5.currentCash - stateMixed5.currentCash * cfgKellyOn.commissionRate) := by
  with_unfolding_all decide

/-- C2 amended: when an entry executes with Kelly sizing enabled and at
least 5 completed trades, the shares bought are
`availableCash * kellyFraction / fillPrice` (so only that fraction of
the available cash is converted to shares), but the ledger's cash is
set to 0: the uninvested remainder is dropped from the ledger rather
than kept as free cash. -/
theorem enter_position_commits_fraction (cfg : Backtester.BTConfig)
    (data : List OHLCV) (idx : ℕ) (s : Backtester.BTState) :
    (Backtester.enterPosition cfg data idx s).currentShares =
      (s.currentCash - s.currentCash * cfg.commissionRate) *
        (if cfg.useKellyCriterion ∧ 5 ≤ s.trades.length then
          Backtester.calculateKellyFraction s.trades
        else 1) / Backtester.fillPrice data idx ∧
    (Backtester.enterPosition cfg data idx s).currentCash = 0 :=
  ⟨rfl, rfl⟩

/-! ## C5 — Kelly fraction formula and clamping -/

/-- C5 counterexample: a two-trade history (one winner, one loser) is
not degenerate (wins is neither 0 nor total, avgLoss is 100 ≠ 0), so
the claim says `calculateKellyFraction` returns the clamped half-Kelly
value — which is 0 here — yet the code returns 1 because it treats any
history of fewer than 5 trades with the fraction-1 fallback. -/
theorem kelly_short_history_counterexample :
    tradesTwo.length = 2 ∧
    Backtester.kellyWins tradesTwo = 1 ∧
    Backtester.kellyAvgLoss tradesTwo = 100 ∧
    Backtester.calculateKellyFraction tradesTwo = 1 ∧
    Backtester.kellyClaimFormula tradesTwo = 0 ∧
    Backtester.calculateKellyFraction tradesTwo ≠ Backtester.kellyClaimFormula tradesTwo := by
  with_unfolding_all decide

/-- C5 amended: `calculateKellyFraction` always returns a value in
[0, 1]; in the degenerate cases (`wins = 0`, `wins = total`, or
`avgLoss = 0`) it returns exactly 1; for any history of fewer than 5
trades it also returns 1 (even when not degenerate); and in the
remaining cases (≥ 5 trades, non-degenerate) it returns exactly the
half-Kelly value `winRate - (1-winRate)/(avgWin/avgLoss)`, halved and
clamped to [0, 1]. -/
theorem kelly_fraction_clamped (trades : List Trade) :
    (0 ≤ Backtester.calculateKellyFraction trades ∧
      Backtester.calculateKellyFraction trades ≤ 1) ∧
    (Backtester.kellyWins trades = 0 ∨ Backtester.kellyWins trades = trades.length ∨
        Backtester.kellyAvgLoss trades = 0 →
      Backtester.calculateKellyFraction trades = 1) ∧
    (trades.length < 5 → Backtester.calculateKellyFraction trades = 1) ∧
    (5 ≤ trades.length → Backtester.kellyWins trades ≠ 0 →
      Backtester.kellyWins trades ≠ trades.length →
      Backtester.kellyAvgLoss trades ≠ 0 →
      Backtester.calculateKellyFraction trades = Backtester.kellyClaimFormula trades) := by
  unfold Backtester.calculateKellyFraction Backtester.kellyClaimFormula
  dsimp only
  split_ifs with h1 h2 h3
  · exact ⟨⟨zero_le_one, le_refl 1⟩, fun _ => rfl, fun _ => rfl,
      fun h5 => absurd h1 (by omega)⟩
  · refine ⟨⟨zero_le_one, le_refl 1⟩, fun _ => rfl, fun hlt => absurd hlt h1, ?_⟩
    intro _ hw hl _
    rcases h2 with h | h
    · exact absurd h hw
    · exact absurd h hl
  · refine ⟨⟨zero_le_one, le_refl 1⟩, fun _ => rfl, fun hlt => absurd hlt h1, ?_⟩
    intro _ _ _ hA
    exact absurd h3 hA
  · refine ⟨⟨le_max_left 0 _, max_le zero_le_one (min_le_right _ 1)⟩, ?_,
      fun hlt => absurd hlt h1, fun _ _ _ _ => rfl⟩
    intro hdeg
    rcases hdeg with h | h | h
    · exact absurd (Or.inl h) h2
    · exact absurd (Or.inr h) h2
    · exact absurd h h3

/-- Witness for C5 at a concrete non-degenerate 5-trade history. -/
theorem kelly_fraction_clamped_witness :
    (0 ≤ Backtester.calculateKellyFraction tradesMixed5 ∧
      Backtester.calculateKellyFraction tradesMixed5 ≤ 1) ∧
    Backtester.calculateKellyFraction tradesMixed5 = Backtester.kellyClaimFormula tradesMixed5 :=
  ⟨(kelly_fraction_clamped tradesMixed5).1,
   (kelly_fraction_clamped tradesMixed5).2.2.2 (by decide)
     (by with_unfolding_all decide) (by with_unfolding_all decide)
     (by with_unfolding_all decide)⟩

/-! ## C10 — break-even trades count as losses -/

/-- C10: a break-even trade (pnl exactly 0, hence returnPct 0 as set by
`exitPosition`) is classified as a losing trade by both the
Kelly-fraction loop and the metrics loop: it is excluded from the win
count, included in the losing-trade denominator (`total - wins` grows
by one), and contributes 0 to both total loss amounts. -/
theorem breakeven_trade_counted_as_loss (l₁ l₂ : List Trade) (t : Trade)
    (hpnl : t.pnl = 0) (hret : t.returnPct = 0) :
    Backtester.kellyWins (l₁ ++ t :: l₂) = Backtester.kellyWins (l₁ ++ l₂) ∧
    (l₁ ++ t :: l₂).length - Backtester.kellyWins (l₁ ++ t :: l₂)
      = ((l₁ ++ l₂).length - Backtester.kellyWins (l₁ ++ l₂)) + 1 ∧
    Backtester.kellyTotalLossAmount (l₁ ++ t :: l₂)
      = Backtester.kellyTotalLossAmount (l₁ ++ l₂) ∧
    Backtester.winningTrades (l₁ ++ t :: l₂) = Backtester.winningTrades (l₁ ++ l₂) ∧
    (l₁ ++ t :: l₂).length - Backtester.winningTrades (l₁ ++ t :: l₂)
      = ((l₁ ++ l₂).length - Backtester.winningTrades (l₁ ++ l₂)) + 1 ∧
    Backtester.totalLoss (l₁ ++ t :: l₂) = Backtester.totalLoss (l₁ ++ l₂) ∧
    (∀ (cfg : Backtester.BTConfig) (data : List OHLCV) (idx : ℕ)
        (s : Backtester.BTState),
      ((Backtester.exitPosition cfg data idx s).trades.getLastD default).pnl = 0 →
      ((Backtester.exitPosition cfg data idx s).trades.getLastD default).returnPct = 0) := by
  have hd : decide (0 < t.pnl) = false := by
    simp [hpnl]
  have hw : Backtester.kellyWins (l₁ ++ t :: l₂) = Backtester.kellyWins (l₁ ++ l₂) := by
    unfold Backtester.kellyWins
    simp [List.filter_append, List.filter_cons, hd]
  have hwin : Backtester.winningTrades (l₁ ++ t :: l₂)
      = Backtester.winningTrades (l₁ ++ l₂) := by
    unfold Backtester.winningTrades
    simp [List.filter_append, List.filter_cons, hd]
  have hlen : (l₁ ++ t :: l₂).length = (l₁ ++ l₂).length + 1 := by
    simp
    omega
  have hwle : Backtester.kellyWins (l₁ ++ l₂) ≤ (l₁ ++ l₂).length :=
    List.length_filter_le _ _
  have hwinle : Backtester.winningTrades (l₁ ++ l₂) ≤ (l₁ ++ l₂).length :=
    List.length_filter_le _ _
  refine ⟨hw, by rw [hw, hlen, Nat.succ_sub hwle], ?_, hwin,
    by rw [hwin, hlen, Nat.succ_sub hwinle], ?_, ?_⟩
  · unfold Backtester.kellyTotalLossAmount
    simp [List.filter_append, List.filter_cons, hd, hret]
  · unfold Backtester.totalLoss
    simp [List.filter_append, List.filter_cons, hd, hpnl]
  · intro cfg data idx s h0
    unfold Backtester.exitPosition at h0 ⊢
    dsimp only at h0 ⊢
    rw [List.getLastD_concat] at h0 ⊢
    dsimp only at h0 ⊢
    rw [h0]
    simp

/-- Witness for C10: inserting a break-even trade into a concrete
two-trade log. -/
theorem breakeven_trade_counted_as_loss_witness :
    Backtester.kellyWins [⟨0, 0, 1, 1, 1, 1, 1⟩, ⟨0, 0, 1, 1, 1, 0, 0⟩, ⟨0, 0, 1, 1, 1, -1, -1⟩]
      = Backtester.kellyWins [⟨0, 0, 1, 1, 1, 1, 1⟩, ⟨0, 0, 1, 1, 1, -1, -1⟩] ∧
    ([(⟨0, 0, 1, 1, 1, 1, 1⟩ : Trade), ⟨0, 0, 1, 1, 1, 0, 0⟩, ⟨0, 0, 1, 1, 1, -1, -1⟩].length -
        Backtester.kellyWins [⟨0, 0, 1, 1, 1, 1, 1⟩, ⟨0, 0, 1, 1, 1, 0, 0⟩, ⟨0, 0, 1, 1, 1, -1, -1⟩])
      = (([(⟨0, 0, 1, 1, 1, 1, 1⟩ : Trade), ⟨0, 0, 1, 1, 1, -1, -1⟩].length -
          Backtester.kellyWins [⟨0, 0, 1, 1, 1, 1, 1⟩, ⟨0, 0, 1, 1, 1, -1, -1⟩])) + 1 ∧
    Backtester.kellyTotalLossAmount
        [⟨0, 0, 1, 1, 1, 1, 1⟩, ⟨0, 0, 1, 1, 1, 0, 0⟩, ⟨0, 0, 1, 1, 1, -1, -1⟩]
      = Backtester.kellyTotalLossAmount [⟨0, 0, 1, 1, 1, 1, 1⟩, ⟨0, 0, 1, 1, 1, -1, -1⟩] ∧
    Backtester.winningTrades
        [⟨0, 0, 1, 1, 1, 1, 1⟩, ⟨0, 0, 1, 1, 1, 0, 0⟩, ⟨0, 0, 1, 1, 1, -1, -1⟩]
      = Backtester.winningTrades [⟨0, 0, 1, 1, 1, 1, 1⟩, ⟨0, 0, 1, 1, 1, -1, -1⟩] ∧
    ([(⟨0, 0, 1, 1, 1, 1, 1⟩ : Trade), ⟨0, 0, 1, 1, 1, 0, 0⟩, ⟨0, 0, 1, 1, 1, -1, -1⟩].length -
        Backtester.winningTrades
          [⟨0, 0, 1, 1, 1, 1, 1⟩, ⟨0, 0, 1, 1, 1, 0, 0⟩, ⟨0, 0, 1, 1, 1, -1, -1⟩])
      = (([(⟨0, 0, 1, 1, 1, 1, 1⟩ : Trade), ⟨0, 0, 1, 1, 1, -1, -1⟩].length -
          Backtester.winningTrades [⟨0, 0, 1, 1, 1, 1, 1⟩, ⟨0, 0, 1, 1, 1, -1, -1⟩])) + 1 ∧
    Backtester.totalLoss [⟨0, 0, 1, 1, 1, 1, 1⟩, ⟨0, 0, 1, 1, 1, 0, 0⟩, ⟨0, 0, 1, 1, 1, -1, -1⟩]
      = Backtester.totalLoss [⟨0, 0, 1, 1, 1, 1, 1⟩, ⟨0, 0, 1, 1, 1, -1, -1⟩] ∧
    ((Backtester.exitPosition cfgTrendUp dataTwoBars 0
        ⟨0, 10, true, [⟨2, 0, 10, 0, 10, 0, 0⟩]⟩).trades.getLastD default).returnPct = 0 :=
  have h := breakeven_trade_counted_as_loss [⟨0, 0, 1, 1, 1, 1, 1⟩] [⟨0, 0, 1, 1, 1, -1, -1⟩]
    ⟨0, 0, 1, 1, 1, 0, 0⟩ rfl rfl
  ⟨h.1, h.2.1, h.2.2.1, h.2.2.2.1, h.2.2.2.2.1, h.2.2.2.2.2.1,
    h.2.2.2.2.2.2 cfgTrendUp dataTwoBars 0 ⟨0, 10, true, [⟨2, 0, 10, 0, 10, 0, 0⟩]⟩
      (by with_unfolding_all decide)⟩

/-! ## C1 — ledger invariant -/

/-- The `enterPosition` always zeroes the cash. -/
lemma enterPosition_cash_zero (cfg : Backtester.BTConfig) (data : List OHLCV)
    (idx : ℕ) (s : Backtester.BTState) :
    (Backtester.enterPosition cfg data idx s).currentCash = 0 := rfl

/-- The `exitPosition` always zeroes the share count. -/
lemma exitPosition_shares_zero (cfg : Backtester.BTConfig) (data : List OHLCV)
    (idx : ℕ) (s : Backtester.BTState) :
    (Backtester.exitPosition cfg data idx s).currentShares = 0 := rfl

/-- One bar of the signal loop preserves "cash or shares is zero":
every branch returns the unchanged state, an `enterPosition` result
(cash 0) or an `exitPosition` result (shares 0). -/
lemma stepBar_ledger (cfg : Backtester.BTConfig) (data : List OHLCV)
    (ind : Backtester.IndicatorSet) (i : ℕ) (s : Backtester.BTState)
    (h : s.currentCash = 0 ∨ s.currentShares = 0) :
    (Backtester.stepBar cfg data ind i s).currentCash = 0 ∨
    (Backtester.stepBar cfg data ind i s).currentShares = 0 := by
  unfold Backtester.stepBar
  split
  · exact Or.inr rfl
  · split
    · exact Or.inr rfl
    · dsimp only
      split
      · exact Or.inl rfl
      · split
        · exact Or.inr rfl
        · exact h

/-- The signal loop preserves "cash or shares is zero" along its whole
trace and in its final state. -/
lemma runFrom_ledger (cfg : Backtester.BTConfig) (data : List OHLCV)
    (ind : Backtester.IndicatorSet) :
    ∀ (fuel i : ℕ) (s : Backtester.BTState),
      s.currentCash = 0 ∨ s.currentShares = 0 →
      (∀ x ∈ (Backtester.runFrom cfg data ind i s fuel).2,
        x.currentCash = 0 ∨ x.currentShares = 0) ∧
      ((Backtester.runFrom cfg data ind i s fuel).1.currentCash = 0 ∨
        (Backtester.runFrom cfg data ind i s fuel).1.currentShares = 0) := by
  intro fuel
  induction fuel with
  | zero =>
    intro i s hs
    refine ⟨?_, ?_⟩
    · intro x hx
      simp [Backtester.runFrom] at hx
    · simpa [Backtester.runFrom] using hs
  | succ n ih =>
    intro i s hs
    have hstep := stepBar_ledger cfg data ind i s hs
    have hrec := ih (i + 1) (Backtester.stepBar cfg data ind i s) hstep
    constructor
    · intro x hx
      simp only [Backtester.runFrom] at hx
      rcases List.mem_cons.mp hx with h | h
      · exact h ▸ hstep
      · exact hrec.1 x h
    · simpa only [Backtester.runFrom] using hrec.2

/-- C1 amended: the ledger's cash and shares are never simultaneously
nonzero — after every bar of any run (hence after every
`enterPosition`, which zeroes cash, and every `exitPosition`, which
zeroes shares, the forced final liquidation included), `cash = 0` or
`shares = 0` holds.  The stronger XOR form of the claim fails: see the
counterexample, where a Kelly fraction of 0 leaves cash and shares both
zero while in position. -/
theorem ledger_never_both_nonzero (sqrtq : ℚ → ℚ) (cfg : Backtester.BTConfig)
    (data : List OHLCV) :
    ∀ s ∈ (Backtester.run sqrtq cfg data).2,
      s.currentCash = 0 ∨ s.currentShares = 0 := by
  intro s hs
  unfold Backtester.run at hs
  split at hs
  · simp at hs
  · have hmain := runFrom_ledger cfg data (Backtester.computeIndicators sqrtq cfg data)
      (data.length - cfg.longPeriod) cfg.longPeriod (Backtester.initState cfg)
      (Or.inr rfl)
    dsimp only at hs
    split at hs
    · rcases List.mem_append.mp hs with h | h
      · exact hmain.1 s h
      · rw [List.mem_singleton] at h
        subst h
        exact Or.inr rfl
    · exact hmain.1 s hs

/-- Witness for C1 at a concrete run (the state after the first entry:
cash is 0). -/
theorem ledger_never_both_nonzero_witness :
    ((Backtester.run (fun x => x) cfgKellyZero dataKellyZero).2.getD 0 default).currentCash = 0 ∨
    ((Backtester.run (fun x => x) cfgKellyZero dataKellyZero).2.getD 0 default).currentShares
      = 0 :=
  ledger_never_both_nonzero (fun x => x) cfgKellyZero dataKellyZero _
    (by with_unfolding_all decide)

/-- C1 counterexample: running `cfgKellyZero` on `dataKellyZero`, the
sixth entry (bar 12, trace position 10) is sized with Kelly fraction 0:
after that `enterPosition` the engine is in position with `cash = 0`
AND `shares = 0`, so `cash == 0 XOR shares == 0` is false — the claimed
XOR form of the invariant does not hold on this run. -/
theorem ledger_xor_counterexample :
    ((Backtester.run (fun x => x) cfgKellyZero dataKellyZero).2.getD 10 default).inPosition
      = true ∧
    ((Backtester.run (fun x => x) cfgKellyZero dataKellyZero).2.getD 10 default).currentCash
      = 0 ∧
    ((Backtester.run (fun x => x) cfgKellyZero dataKellyZero).2.getD 10 default).currentShares
      = 0 ∧
    ¬ Xor' (((Backtester.run (fun x => x) cfgKellyZero dataKellyZero).2.getD 10
          default).currentCash = 0)
        (((Backtester.run (fun x => x) cfgKellyZero dataKellyZero).2.getD 10
          default).currentShares = 0) := by
  with_unfolding_all decide

/-! ## C4 — transition fill prices and the forced final liquidation -/

/-- C4: every `enterPosition`/`exitPosition` at index `i` (called for
entries, signal exits, risk exits, and the forced final liquidation)
records the fill price given by the rule "next bar's open if it exists
and is strictly positive, else the current bar's close"; at the final
index that rule falls back to the last bar's close; and whenever the
forward pass ends still in position, `run` closes it via
`exitPosition` at index `data.length - 1`. -/
theorem transition_fill_price (sqrtq : ℚ → ℚ) (cfg : Backtester.BTConfig)
    (data : List OHLCV) (idx : ℕ) (s : Backtester.BTState) :
    ((Backtester.enterPosition cfg data idx s).trades.getLastD default).entryPrice
      = Backtester.fillPrice data idx ∧
    ((Backtester.exitPosition cfg data idx s).trades.getLastD default).exitPrice
      = Backtester.fillPrice data idx ∧
    (0 < data.length →
      Backtester.fillPrice data (data.length - 1)
        = (data.getD (data.length - 1) default).close) ∧
    (cfg.longPeriod + 1 ≤ data.length →
      (Backtester.runLoop sqrtq cfg data).1.inPosition = true →
      (Backtester.run sqrtq cfg data).1
        = Backtester.exitPosition cfg data (data.length - 1)
            (Backtester.runLoop sqrtq cfg data).1) := by
  refine ⟨?_, ?_, ?_, ?_⟩
  · unfold Backtester.enterPosition Backtester.fillPrice
    dsimp only
    rw [List.getLastD_concat]
  · unfold Backtester.exitPosition Backtester.fillPrice
    dsimp only
    rw [List.getLastD_concat]
  · intro h
    unfold Backtester.fillPrice
    rw [if_neg]
    rintro ⟨hlt, _⟩
    omega
  · intro h1 h2
    unfold Backtester.run
    rw [if_neg (by omega)]
    dsimp only
    split
    · rfl
    · rename_i hfalse
      exact absurd h2 hfalse

/-- Witness for C4: on `dataTrendUp` the forward pass ends in position;
the run closes it at the last index 5, whose fill price is the last
close. -/
theorem transition_fill_price_witness :
    ((Backtester.enterPosition cfgTrendUp dataTrendUp 2
        (Backtester.initState cfgTrendUp)).trades.getLastD default).entryPrice
      = Backtester.fillPrice dataTrendUp 2 ∧
    (0 < dataTrendUp.length →
      Backtester.fillPrice dataTrendUp (dataTrendUp.length - 1)
        = (dataTrendUp.getD (dataTrendUp.length - 1) default).close) ∧
    (Backtester.run (fun x => x) cfgTrendUp dataTrendUp).1
      = Backtester.exitPosition cfgTrendUp dataTrendUp (dataTrendUp.length - 1)
          (Backtester.runLoop (fun x => x) cfgTrendUp dataTrendUp).1 :=
  ⟨(transition_fill_price (fun x => x) cfgTrendUp dataTrendUp 2
      (Backtester.initState cfgTrendUp)).1,
   (transition_fill_price (fun x => x) cfgTrendUp dataTrendUp 2
      (Backtester.initState cfgTrendUp)).2.2.1,
   (transition_fill_price (fun x => x) cfgTrendUp dataTrendUp 2
      (Backtester.initState cfgTrendUp)).2.2.2 (by decide)
      (by with_unfolding_all decide)⟩

/-! ## C8 — drawdown replay equity when flat -/

/-- C8 counterexample: running `cfgCommission` (10% commission) on
`dataOneTrade` realizes cash 81 after the single trade's exit, but the
drawdown replay's equity at the flat bar after the exit (trace position
2) is 90 — the trade's gross exit proceeds `shares * exitPrice`, not
the ledger's realized (net-of-commission) cash as the claim states. -/
theorem drawdown_flat_equity_counterexample :
    (Backtester.run (fun x => x) cfgCommission dataOneTrade).1.currentCash = 81 ∧
    ((Backtester.ddTrace cfgCommission dataOneTrade
        (Backtester.run (fun x => x) cfgCommission dataOneTrade).1.trades).getD 2
        default).holding = false ∧
    ((Backtester.ddTrace cfgCommission dataOneTrade
        (Backtester.run (fun x => x) cfgCommission dataOneTrade).1.trades).getD 2
        default).equity = 90 ∧
    ((Backtester.ddTrace cfgCommission dataOneTrade
        (Backtester.run (fun x => x) cfgCommission dataOneTrade).1.trades).getD 2
        default).equity
      ≠ (Backtester.run (fun x => x) cfgCommission dataOneTrade).1.currentCash := by
  with_unfolding_all decide

/-- C8 amended: in the drawdown replay, the equity recorded at the bar
matching the open trade's exit date is the trade's gross exit proceeds
`shares * exitPrice` (before exit commission), and it is carried
unchanged over flat bars; the ledger's realized cash after
`exitPosition` is `shares * fillPrice * (1 - commissionRate)`, so the
two agree only when the commission rate is zero. -/
theorem drawdown_flat_equity_gross (trades : List Trade) (bar : OHLCV)
    (st : Backtester.DDState) (cfg : Backtester.BTConfig) (data : List OHLCV)
    (idx : ℕ) (s : Backtester.BTState) :
    (st.holding = true → st.tradeIdx < trades.length →
      bar.date = (trades.getD st.tradeIdx default).exitDate →
      (Backtester.ddStep trades bar st).equity
          = st.shares * (trades.getD st.tradeIdx default).exitPrice ∧
        (Backtester.ddStep trades bar st).holding = false) ∧
    (st.holding = false →
      (trades.length ≤ st.tradeIdx ∨
        bar.date ≠ (trades.getD st.tradeIdx default).entryDate) →
      (Backtester.ddStep trades bar st).equity = st.equity) ∧
    (Backtester.exitPosition cfg data idx s).currentCash
      = s.currentShares * Backtester.fillPrice data idx * (1 - cfg.commissionRate) := by
  refine ⟨?_, ?_, ?_⟩
  · intro hH hIdx hdate
    constructor
    · simp [Backtester.ddStep, hIdx, hH, hdate]
    · simp [Backtester.ddStep, hIdx, hH, hdate]
  · intro hH hcond
    rcases hcond with h | h
    · simp [Backtester.ddStep, Nat.not_lt.mpr h]
    · simp only [List.getD_eq_getElem?_getD] at h
      simp [Backtester.ddStep, hH, h]
  · unfold Backtester.exitPosition Backtester.fillPrice
    dsimp only
    ring

/-- Witness for C8 at the concrete one-trade run: exit-bar equity is
18 × 5 = 90 with holding cleared, a flat bar carries equity unchanged,
and the ledger's exit cash is 18 × 5 × (1 - 1/10) = 81. -/
theorem drawdown_flat_equity_gross_witness :
    ((Backtester.ddStep [⟨2, 3, 5, 5, 18, -9, -10⟩] (mkBar 3 5 9)
        ⟨180, 0, 180, 0, true, 5, 18⟩).equity
      = (⟨180, 0, 180, 0, true, 5, 18⟩ : Backtester.DDState).shares *
          (([⟨2, 3, 5, 5, 18, -9, -10⟩] : List Trade).getD
            (⟨180, 0, 180, 0, true, 5, 18⟩ : Backtester.DDState).tradeIdx
            default).exitPrice ∧
      (Backtester.ddStep [⟨2, 3, 5, 5, 18, -9, -10⟩] (mkBar 3 5 9)
        ⟨180, 0, 180, 0, true, 5, 18⟩).holding = false) ∧
    (Backtester.ddStep [⟨2, 3, 5, 5, 18, -9, -10⟩] (mkBar 4 5 9)
        ⟨180, 50, 90, 1, false, 5, 18⟩).equity
      = (⟨180, 50, 90, 1, false, 5, 18⟩ : Backtester.DDState).equity ∧
    (Backtester.exitPosition cfgCommission dataOneTrade 3
        ⟨0, 18, true, [⟨2, 0, 5, 0, 18, 0, 0⟩]⟩).currentCash
      = (⟨0, 18, true, [⟨2, 0, 5, 0, 18, 0, 0⟩]⟩ : Backtester.BTState).currentShares *
          Backtester.fillPrice dataOneTrade 3 * (1 - cfgCommission.commissionRate) :=
  ⟨(drawdown_flat_equity_gross [⟨2, 3, 5, 5, 18, -9, -10⟩] (mkBar 3 5 9)
      ⟨180, 0, 180, 0, true, 5, 18⟩ cfgCommission dataOneTrade 3
      ⟨0, 18, true, [⟨2, 0, 5, 0, 18, 0, 0⟩]⟩).1 rfl (by decide) rfl,
   (drawdown_flat_equity_gross [⟨2, 3, 5, 5, 18, -9, -10⟩] (mkBar 4 5 9)
      ⟨180, 50, 90, 1, false, 5, 18⟩ cfgCommission dataOneTrade 3
      ⟨0, 18, true, [⟨2, 0, 5, 0, 18, 0, 0⟩]⟩).2.1 rfl (Or.inl (by decide)),
   (drawdown_flat_equity_gross [⟨2, 3, 5, 5, 18, -9, -10⟩] (mkBar 3 5 9)
      ⟨180, 0, 180, 0, true, 5, 18⟩ cfgCommission dataOneTrade 3
      ⟨0, 18, true, [⟨2, 0, 5, 0, 18, 0, 0⟩]⟩).2.2⟩
